import Mathlib

/-!
Verification of the caching-and-listing subsystem of the image-tagging
backend (`src/app.py`).  The Python handlers are shallowly embedded as pure
Lean functions: the S3 object store is modelled by the list of result pages
it would return, wall-clock time is an explicit `Int` parameter, and the
process-wide `directory_cache` dictionary is threaded through as a value of
type `Cache`.  All definitions are executable.
-/

set_option maxRecDepth 10000

namespace ImageTagging

/-! ## Python string primitives (modelled character-wise, as Python `str`
operations act on code points) -/

/-- Python `s[n:]` (with `0 ≤ n`). -/
def strDrop (s : String) (n : Nat) : String := ⟨s.data.drop n⟩

/-- Python `s.lower()` restricted to ASCII case mapping (the extensions the
code compares against are ASCII, and non-ASCII letters never lower-case into
ASCII, so membership tests agree with Python). -/
def strLower (s : String) : String := ⟨s.data.map Char.toLower⟩

/-- Python `s.endswith('/')`. -/
def endsSlash (s : String) : Bool := s.data.getLast? == some '/'

/-- Python `s.startswith('/')`. -/
def startsSlash (s : String) : Bool := s.data.head? == some '/'

/-- Python `s.rstrip('/')`: remove every trailing `'/'`. -/
def rstripSlash (s : String) : String := ⟨List.rdropWhile (· == '/') s.data⟩

/-- Python `s.replace('\\', '/')`. -/
def replBack (s : String) : String :=
  ⟨s.data.map (fun c => if c = '\\' then '/' else c)⟩

/-- `posixpath.join` on two components (`os.path.join` as the code runs it,
with `/` separators; backslash replacement is applied separately). -/
def pjoin (a b : String) : String :=
  if startsSlash b then b
  else if a = "" ∨ endsSlash a then a ++ b
  else a ++ "/" ++ b

/-- `posixpath.splitext`: split off the extension at the last dot of the
basename, where the basename's leading dots never start an extension. -/
def splitext (s : String) : String × String :=
  let cs := s.data
  let base := (cs.reverse.takeWhile (fun c => c ≠ '/')).reverse
  let rest := base.dropWhile (fun c => c = '.')
  let extRev := rest.reverse.takeWhile (fun c => c ≠ '.')
  if extRev.length = rest.length then (s, "")
  else (⟨cs.take (cs.length - (extRev.length + 1))⟩, ⟨'.' :: extRev.reverse⟩)

/-- The normalisation `if p and not p.endswith('/'): p += '/'` that
`list_subdirectories`, `list_images` and `save_categorized` all apply. -/
def normalizeDir (p : String) : String :=
  if p ≠ "" ∧ endsSlash p = false then p ++ "/" else p

/-! ## Constants of `app.py` -/

/-- `IMAGE_EXTENSIONS` (app.py line 27). -/
def IMAGE_EXTENSIONS : List String :=
  [".jpg", ".jpeg", ".png", ".gif", ".bmp", ".webp", ".svg", ".tiff"]

/-- `UNCATEGORIZED_FOLDER` (app.py line 40). -/
def UNCATEGORIZED_FOLDER : String := "Uncategorized_Images/"

/-- `cache_timeout = 300` seconds (app.py line 44). -/
def cache_timeout : Int := 300

/-- `allowed_file` (app.py lines 396-399). -/
def allowed_file (filename : String) : Bool :=
  filename.data.contains '.' &&
    IMAGE_EXTENSIONS.contains (strLower (splitext filename).2)

/-! ## The listing cache -/

/-- A directory entry `{"path": ..., "name": ...}`. -/
structure DirEntry where
  path : String
  name : String
deriving DecidableEq, Repr

/-- A cache value `{'data': ..., 'timestamp': ...}`. -/
structure CacheEntry where
  data : List DirEntry
  timestamp : Int
deriving DecidableEq, Repr

/-- The `directory_cache` dictionary, as a partial map from keys to entries. -/
def Cache : Type := String → Option CacheEntry

def emptyCache : Cache := fun _ => none

/-- `directory_cache[k] = e`. -/
def Cache.put (c : Cache) (k : String) (e : CacheEntry) : Cache :=
  fun k' => if k' = k then some e else c k'

/-- `directory_cache.pop(k, None)` / the guarded `pop` the handlers run. -/
def Cache.erase (c : Cache) (k : String) : Cache :=
  fun k' => if k' = k then none else c k'

/-- `clear_expired_cache` (app.py lines 46-51): drop every entry whose age
`current_time - v['timestamp']` is strictly greater than `cache_timeout`. -/
def clear_expired_cache (c : Cache) (current_time : Int) : Cache :=
  fun k =>
    match c k with
    | some e => if current_time - e.timestamp > cache_timeout then none else some e
    | none => none

/-! ## Directory listing handlers

The store is modelled by the pages `list_objects_v2` would return: each page
is the list of common prefixes it carries.  A plain (non-paginated)
`list_objects_v2` call observes only the first page; the paginator walks all
of them. -/

/-- Result of a listing handler: the JSON payload, the cache afterwards, and
whether the store was queried. -/
structure ListResult where
  result : List DirEntry
  cache : Cache
  queried : Bool

/-- The directory list `list_directories` builds from the store's (single)
response page (app.py lines 78-90): a synthetic Root entry followed by one
entry per common prefix, the name being the prefix with trailing `/`
stripped. -/
def rootDirsFromStore (page : List String) : List DirEntry :=
  ⟨"", "Root"⟩ :: page.map (fun p => ⟨p, rstripSlash p⟩)

/-- `list_directories` (app.py lines 60-101): serve from cache when the entry
is younger than `cache_timeout`, otherwise issue one non-paginated store
request (observing only the first page), cache and return the result. -/
def list_directories (c : Cache) (now : Int) (pages : List (List String)) :
    ListResult :=
  let miss : ListResult :=
    let dirs := rootDirsFromStore (pages.headD [])
    ⟨dirs, c.put "root_directories" ⟨dirs, now⟩, true⟩
  match c "root_directories" with
  | some e => if now - e.timestamp < cache_timeout then ⟨e.data, c, false⟩ else miss
  | none => miss

/-- The subdirectory list built from all store pages (app.py lines 131-148):
skip the parent prefix itself; each remaining prefix yields an entry whose
name drops `len(parent')` characters and strips trailing slashes. -/
def subdirsFromStore (pfxParent : String) (pages : List (List String)) :
    List DirEntry :=
  (pages.map (fun page =>
    (page.filter (fun p => p ≠ pfxParent)).map
      (fun p => ⟨p, rstripSlash (strDrop p pfxParent.length)⟩))).flatten

/-- `list_subdirectories` (app.py lines 103-158).  The cache key uses the
raw request prefix; the store query uses the normalised one. -/
def list_subdirectories (c : Cache) (now : Int) (parent : String)
    (pages : List (List String)) : ListResult :=
  let key := "subdirs_" ++ parent
  let miss : ListResult :=
    let subdirs := subdirsFromStore (normalizeDir parent) pages
    ⟨subdirs, c.put key ⟨subdirs, now⟩, true⟩
  match c key with
  | some e => if now - e.timestamp < cache_timeout then ⟨e.data, c, false⟩ else miss
  | none => miss

/-! ## Image listing -/

/-- One listed object, as `list_objects_v2` reports it. -/
structure S3Obj where
  key : String
  lastModified : String
  size : Nat
deriving DecidableEq, Repr

/-- An entry of the aggregated image list (app.py lines 196-201). -/
structure ImageEntry where
  filename : String
  key : String
  lastModified : String
  size : Nat
deriving DecidableEq, Repr

/-- The response of `list_images` (app.py lines 211-218). -/
structure ImagesResult where
  images : List ImageEntry
  totalCount : Nat
  folderPath : String
  currentPage : Nat
  pageSize : Nat
  totalPages : Nat
deriving DecidableEq, Repr

/-- The aggregation loop of `list_images` (app.py lines 180-201): walk every
store page, skip keys ending in `/`, keep keys whose lower-cased `splitext`
extension is a recognised image extension, and strip the (normalised) folder
path off the key to obtain the filename. -/
def aggregateImages (fp : String) (pages : List (List S3Obj)) :
    List ImageEntry :=
  (pages.map (fun page =>
    page.filterMap (fun o =>
      if endsSlash o.key then none
      else if strLower (splitext o.key).2 ∈ IMAGE_EXTENSIONS then
        some ⟨if fp ≠ "" then strDrop o.key fp.length else o.key,
              o.key, o.lastModified, o.size⟩
      else none))).flatten

/-- `list_images` (app.py lines 160-220) once page and pageSize are resolved:
aggregate every store page, then slice `[start, start+pageSize)` with
`start = (page-1)*pageSize`. -/
def list_images (folderPath : String) (pageSize page : Nat)
    (pages : List (List S3Obj)) : ImagesResult :=
  let fp := normalizeDir folderPath
  let image_files := aggregateImages fp pages
  let total_count := image_files.length
  let start_idx := (page - 1) * pageSize
  ⟨(image_files.drop start_idx).take pageSize, total_count, fp, page, pageSize,
    (total_count + pageSize - 1) / pageSize⟩

/-- The request unpacking of `list_images` (app.py lines 163-166):
`data.get('folderPath', '')`, `data.get('pageSize', 100)`,
`data.get('page', 1)`. -/
def list_images_request (folderPath : Option String)
    (pageSize page : Option Nat) (pages : List (List S3Obj)) : ImagesResult :=
  list_images (folderPath.getD "") (pageSize.getD 100) (page.getD 1) pages

/-! ## Categorisation -/

/-- One element of the `categorizedImages` request list; either key may be
missing from the JSON object. -/
structure CatItem where
  filename? : Option String
  category? : Option String
deriving DecidableEq, Repr

/-- One element of the `results` list of `save_categorized`
(app.py lines 301-312). -/
structure CatEntry where
  original : String
  renamed : Option String
  category : Option String
  success : Bool
  error : Option String
deriving DecidableEq, Repr

/-- The 200-response of `save_categorized` (app.py lines 319-323). -/
structure CatOk where
  results : List CatEntry
  categorizedCount : Nat
  destinationFolder : String
deriving DecidableEq, Repr

/-- `new_filename = f"{name}_{category}{ext}"` (app.py lines 284-285). -/
def renamedFile (filename category : String) : String :=
  (splitext filename).1 ++ "_" ++ category ++ (splitext filename).2

/-- `source_key = os.path.join(source_folder, filename).replace('\\', '/')`
(app.py line 283); `sf` is the already-normalised source folder. -/
def sourceKeyOf (sf filename : String) : String := replBack (pjoin sf filename)

/-- `dest_key = os.path.join("CategorizedFiles/", category, new_filename)
.replace('\\', '/')` (app.py lines 269, 286). -/
def destKeyOf (filename category : String) : String :=
  replBack (pjoin (pjoin "CategorizedFiles/" category) (renamedFile filename category))

/-- `save_categorized` (app.py lines 250-325).  `copyE src dst` and
`delE src` are oracles for the store's copy and delete calls, returning the
exception message on failure.  The first component is the HTTP response
(`Except.error` being the 400 client error), the second the cache after the
handler ran. -/
def save_categorized (sourceFolder : String) (items : List CatItem)
    (copyE : String → String → Except String Unit)
    (delE : String → Except String Unit) (c : Cache) :
    Except String CatOk × Cache :=
  if items = [] then (.error "No categorized images provided", c)
  else
    let sf := normalizeDir sourceFolder
    let results := items.filterMap (fun it =>
      match it.filename?, it.category? with
      | some filename, some category =>
        let src := sourceKeyOf sf filename
        let dst := destKeyOf filename category
        match copyE src dst with
        | .ok _ =>
          match delE src with
          | .ok _ =>
            some ⟨filename, some (renamedFile filename category),
                  some category, true, none⟩
          | .error e => some ⟨filename, none, none, false, some e⟩
        | .error e => some ⟨filename, none, none, false, some e⟩
      | _, _ => none)
    (.ok ⟨results, (results.filter (fun r => r.success)).length, "CategorizedFiles/"⟩,
      c.erase ("subdirs_" ++ sf))

/-! ## Upload -/

/-- One element of the `results` list of `upload_images`
(app.py lines 366-383). -/
structure UploadEntry where
  originalName : String
  storedName : Option String
  s3Key : Option String
  success : Bool
  error : Option String
deriving DecidableEq, Repr

/-- The 200-response of `upload_images` (app.py lines 390-394). -/
structure UploadOk where
  results : List UploadEntry
  uploadedCount : Nat
  destinationFolder : String
deriving DecidableEq, Repr

/-- `upload_images` (app.py lines 328-394).  `files?` is `none` when the
request carries no `files` field; `secure` models werkzeug's
`secure_filename`, `uuids i` the hex token drawn for the `i`-th file, and
`upE key` the store upload call.  Returns the HTTP response (`Except.error`
being a 400) and the cache afterwards. -/
def upload_images (files? : Option (List String)) (secure : String → String)
    (uuids : Nat → String) (upE : String → Except String Unit) (c : Cache) :
    Except String UploadOk × Cache :=
  match files? with
  | none => (.error "No files provided", c)
  | some files =>
    if files = [] ∨ files.head? = some "" then (.error "No files selected", c)
    else
      let results := files.enum.map (fun (i, f) =>
        if allowed_file f then
          let filename := secure f
          let unique := uuids i ++ "_" ++ filename
          let key := UNCATEGORIZED_FOLDER ++ unique
          match upE key with
          | .ok _ => (⟨filename, some unique, some key, true, none⟩ : UploadEntry)
          | .error e => ⟨f, none, none, false, some e⟩
        else ⟨f, none, none, false, some "File type not allowed"⟩)
      (.ok ⟨results, (results.filter (fun r => r.success)).length,
            UNCATEGORIZED_FOLDER⟩,
        c.erase ("subdirs_" ++ UNCATEGORIZED_FOLDER))

/-- Model of the object store's common-prefix computation (the external
collaborator): under `pfx` with delimiter `/`, each key extending `pfx` whose
remainder still contains a `/` contributes the remainder's first segment. -/
def commonPrefixes (keys : List String) (pfx : String) : List String :=
  (keys.filterMap (fun k =>
    if pfx.data.isPrefixOf k.data then
      let rest := strDrop k pfx.length
      if rest.data.contains '/' then
        some (pfx ++ ⟨rest.data.takeWhile (fun c => c ≠ '/')⟩ ++ "/")
      else none
    else none)).dedup

/-- The per-object acceptance test of `list_images` (app.py lines 187-193) as
one predicate: the key is no pseudo-directory marker and its lower-cased
extension is a recognised image extension. -/
def isImageObj (o : S3Obj) : Bool :=
  !endsSlash o.key && decide (strLower (splitext o.key).2 ∈ IMAGE_EXTENSIONS)

/-- 250 image objects under `p/`, the pagination example of the spec. -/
def exampleObjs : List S3Obj :=
  (List.range 250).map (fun i => ⟨"p/" ++ toString i ++ ".jpg", "t", i⟩)

/-! ## Helper lemmas -/

theorem strext {a b : String} (h : a.data = b.data) : a = b := by
  cases a
  cases b
  exact congrArg String.mk h

theorem empty_append (s : String) : "" ++ s = s := by
  apply strext
  simp

theorem strDrop_append (a b : String) : strDrop (a ++ b) a.length = b := by
  apply strext
  show ((a ++ b).data).drop a.length = b.data
  rw [String.data_append]
  exact List.drop_left a.data b.data

theorem append_ne_self {a s : String} (h : s ≠ "") : a ++ s ≠ a := by
  intro he
  apply h
  apply strext
  have hlen := congrArg (fun t : String => t.data.length) he
  simp [String.data_append] at hlen
  simpa using List.length_eq_zero.mp hlen

theorem endsSlash_append {b : String} (a : String) (hb : b ≠ "") :
    endsSlash (a ++ b) = endsSlash b := by
  have hd : b.data ≠ [] := fun h => hb (strext (by simpa using h))
  unfold endsSlash
  rw [String.data_append, List.getLast?_append_of_ne_nil _ hd]

theorem flatten_filter_map {α β : Type} (q : α → Bool) (f : α → β) :
    ∀ pages : List (List α),
      (pages.map (fun pg => (pg.filter q).map f)).flatten
        = (pages.flatten.filter q).map f
  | [] => rfl
  | pg :: rest => by
      simp only [List.map_cons, List.flatten_cons, List.filter_append,
        List.map_append, flatten_filter_map q f rest]

theorem flatten_filterMap {α β : Type} (g : α → Option β) :
    ∀ pages : List (List α),
      (pages.map (fun pg => pg.filterMap g)).flatten = pages.flatten.filterMap g
  | [] => rfl
  | pg :: rest => by
      simp only [List.map_cons, List.flatten_cons, List.filterMap_append,
        flatten_filterMap g rest]

theorem filterMap_if_eq_filter_map {α β : Type} (p : α → Bool) (f : α → β)
    (g : α → Option β) (h : ∀ a, g a = if p a then some (f a) else none) :
    ∀ l : List α, l.filterMap g = (l.filter p).map f
  | [] => rfl
  | a :: l => by
      rw [List.filterMap_cons, h a]
      by_cases hp : p a <;>
        simp [hp, filterMap_if_eq_filter_map p f g h l]

/-! ## Claims -/

/-- Claim C2, counterexample: the claim says `sweep(ttl)` removes every entry
whose age satisfies `now - timestamp >= ttl`, but `clear_expired_cache` uses
a strict comparison, so an entry whose age is exactly `ttl = 300` seconds is
kept by the sweep. -/
theorem sweep_at_exact_ttl_counterexample :
    clear_expired_cache
        (fun k => if k = "root_directories" then some ⟨[], 0⟩ else none) 300
        "root_directories" = some ⟨[], 0⟩
    ∧ (300 : Int) - 0 ≥ cache_timeout := by
  constructor
  · rfl
  · decide

/-- Claim C2 (amended): `clear_expired_cache` removes exactly the entries
whose age is strictly greater than `cache_timeout`: after the sweep an entry
is present iff it was present before and `now - timestamp ≤ 300`. -/
theorem sweep_removes_exactly_strictly_expired (c : Cache) (now : Int)
    (k : String) (e : CacheEntry) :
    clear_expired_cache c now k = some e
      ↔ c k = some e ∧ now - e.timestamp ≤ cache_timeout := by
  unfold clear_expired_cache
  cases hc : c k with
  | none => simp
  | some e' =>
    by_cases h : now - e'.timestamp > cache_timeout
    · simp only [if_pos h]
      constructor
      · intro hcontra
        exact absurd hcontra (by simp)
      · rintro ⟨he, hle⟩
        cases he
        omega
    · simp only [if_neg h]
      constructor
      · rintro he
        cases he
        exact ⟨rfl, by omega⟩
      · rintro ⟨he, _⟩
        exact he.symm ▸ rfl

/-- Claim C1: a cache entry answers a read iff `now - timestamp < 300`; at or
past the TTL both `list_directories` and `list_subdirectories` fall through
to the store (and refresh the cache) even though no sweep has run. -/
theorem cache_read_validity (c : Cache) (now : Int)
    (pages : List (List String)) (parent : String) :
    ((list_directories c now pages).queried = false
      ↔ ∃ e, c "root_directories" = some e ∧ now - e.timestamp < cache_timeout)
    ∧ (∀ e, c "root_directories" = some e → now - e.timestamp < cache_timeout →
        list_directories c now pages = ⟨e.data, c, false⟩)
    ∧ (∀ e, c "root_directories" = some e → cache_timeout ≤ now - e.timestamp →
        list_directories c now pages
          = ⟨rootDirsFromStore (pages.headD []),
             c.put "root_directories" ⟨rootDirsFromStore (pages.headD []), now⟩,
             true⟩)
    ∧ ((list_subdirectories c now parent pages).queried = false
      ↔ ∃ e, c ("subdirs_" ++ parent) = some e
          ∧ now - e.timestamp < cache_timeout)
    ∧ (∀ e, c ("subdirs_" ++ parent) = some e →
        now - e.timestamp < cache_timeout →
        list_subdirectories c now parent pages = ⟨e.data, c, false⟩)
    ∧ (∀ e, c ("subdirs_" ++ parent) = some e →
        cache_timeout ≤ now - e.timestamp →
        list_subdirectories c now parent pages
          = ⟨subdirsFromStore (normalizeDir parent) pages,
             c.put ("subdirs_" ++ parent)
               ⟨subdirsFromStore (normalizeDir parent) pages, now⟩, true⟩) := by
  refine ⟨?_, ?_, ?_, ?_, ?_, ?_⟩
  · unfold list_directories
    cases hc : c "root_directories" with
    | none => simp [hc]
    | some e =>
      by_cases h : now - e.timestamp < cache_timeout
      · simp [hc, h]
      · simp [hc, h]
  · intro e he hfresh
    unfold list_directories
    rw [he]
    simp [hfresh]
  · intro e he hstale
    unfold list_directories
    rw [he]
    simp only [if_neg (by omega : ¬ now - e.timestamp < cache_timeout)]
  · unfold list_subdirectories
    cases hc : c ("subdirs_" ++ parent) with
    | none => simp [hc]
    | some e =>
      by_cases h : now - e.timestamp < cache_timeout
      · simp [hc, h]
      · simp [hc, h]
  · intro e he hfresh
    unfold list_subdirectories
    simp [he, hfresh]
  · intro e he hstale
    unfold list_subdirectories
    simp only [he]
    rw [if_neg (by omega : ¬ now - e.timestamp < cache_timeout)]

/-- Claim C1, witness: a concrete 299-second-old entry is served from the
cache without a store query. -/
theorem cache_read_validity_witness :
    list_directories
        (Cache.put emptyCache "root_directories" ⟨[⟨"x/", "x"⟩], 0⟩) 299 []
      = ⟨[⟨"x/", "x"⟩],
         Cache.put emptyCache "root_directories" ⟨[⟨"x/", "x"⟩], 0⟩, false⟩ :=
  ((cache_read_validity
      (Cache.put emptyCache "root_directories" ⟨[⟨"x/", "x"⟩], 0⟩)
      299 [] "").2.1 ⟨[⟨"x/", "x"⟩], 0⟩ (by rfl) (by decide))

/-- Claim C8: starting from an empty cache, two `list_directories` calls
less than the TTL apart against the same store return the same result, and
the second is served from the cache populated by the first (no store
query). -/
theorem root_listing_idempotent_within_ttl (t1 t2 : Int)
    (pages : List (List String)) (h : t2 - t1 < cache_timeout) :
    (list_directories (list_directories emptyCache t1 pages).cache t2 pages).result
      = (list_directories emptyCache t1 pages).result
    ∧ (list_directories (list_directories emptyCache t1 pages).cache t2 pages).queried
      = false := by
  unfold list_directories
  simp only [emptyCache, Cache.put, if_pos rfl]
  simp [h]

/-- Claim C8, witness. -/
theorem root_listing_idempotent_witness :
    ((10 : Int) - 0 < cache_timeout)
    ∧ ((list_directories (list_directories emptyCache 0 [["a/"]]).cache 10 [["a/"]]).result
        = (list_directories emptyCache 0 [["a/"]]).result
      ∧ (list_directories (list_directories emptyCache 0 [["a/"]]).cache 10 [["a/"]]).queried
        = false) :=
  ⟨by decide, root_listing_idempotent_within_ttl 0 10 [["a/"]] (by decide)⟩

/-- Claim C10: on a miss `list_directories` issues one non-paginated store
request, so it sees only the first response page: the result is the
synthetic Root entry plus the first page's prefixes, identical to what a
single-page store would give, that result is what gets cached, and any
prefix appearing only on a later page is silently absent. -/
theorem root_listing_first_page_only (now : Int) (p1 : List String)
    (rest : List (List String)) :
    (list_directories emptyCache now (p1 :: rest)).result = rootDirsFromStore p1
    ∧ (list_directories emptyCache now (p1 :: rest)).result
        = (list_directories emptyCache now [p1]).result
    ∧ (list_directories emptyCache now (p1 :: rest)).cache "root_directories"
        = some ⟨rootDirsFromStore p1, now⟩
    ∧ (∀ q : String, q ∈ rest.flatten → q ∉ p1 → q ≠ "" →
        q ∉ (list_directories emptyCache now (p1 :: rest)).result.map
              (fun d => d.path)) := by
  refine ⟨rfl, rfl, by simp [list_directories, emptyCache, Cache.put], ?_⟩
  intro q _ hqp1 hqne
  simp only [list_directories, emptyCache, rootDirsFromStore, List.headD_cons,
    List.map_cons, List.map_map, List.mem_cons, List.mem_map]
  rintro (hq | ⟨p, hp, hpq⟩)
  · exact hqne hq
  · exact hqp1 (by simpa [Function.comp] using hpq ▸ hp)

theorem ceil_div_characterization (n ps : Nat) (hps : 1 ≤ ps) :
    n ≤ ps * ((n + ps - 1) / ps) ∧ ps * ((n + ps - 1) / ps) < n + ps := by
  have hdm := Nat.div_add_mod (n + ps - 1) ps
  have hmlt : (n + ps - 1) % ps < ps := Nat.mod_lt _ (by omega)
  generalize hm : ps * ((n + ps - 1) / ps) = m at hdm ⊢
  omega

/-- Claim C3: `list_images` slices the aggregated list at
`[(page-1)*pageSize, (page-1)*pageSize + pageSize)`, reports the full
aggregated count, computes `totalPages = ceil(totalCount / pageSize)`
(characterised by `totalCount ≤ pageSize * totalPages < totalCount +
pageSize`), defaults page/pageSize to 1/100, and a page beyond the last
yields an empty list — concretely, 250 images with pageSize 100 give pages
of 100, 100 and 50, `totalPages = 3`, and page 4 empty. -/
theorem image_pagination (folderPath : String) (pageSize page : Nat)
    (pages : List (List S3Obj)) (hpage : 1 ≤ page) (hps : 1 ≤ pageSize) :
    (list_images folderPath pageSize page pages).images
      = ((aggregateImages (normalizeDir folderPath) pages).drop
          ((page - 1) * pageSize)).take pageSize
    ∧ (list_images folderPath pageSize page pages).totalCount
      = (aggregateImages (normalizeDir folderPath) pages).length
    ∧ (aggregateImages (normalizeDir folderPath) pages).length
      ≤ pageSize * (list_images folderPath pageSize page pages).totalPages
    ∧ pageSize * (list_images folderPath pageSize page pages).totalPages
      < (aggregateImages (normalizeDir folderPath) pages).length + pageSize
    ∧ ((aggregateImages (normalizeDir folderPath) pages).length
          ≤ (page - 1) * pageSize →
        (list_images folderPath pageSize page pages).images = [])
    ∧ list_images_request (some folderPath) none none pages
      = list_images folderPath 100 1 pages
    ∧ (list_images "p" 100 1 [exampleObjs]).images.length = 100
    ∧ (list_images "p" 100 2 [exampleObjs]).images.length = 100
    ∧ (list_images "p" 100 3 [exampleObjs]).images.length = 50
    ∧ (list_images "p" 100 1 [exampleObjs]).totalPages = 3
    ∧ (list_images "p" 100 4 [exampleObjs]).images = [] := by
  refine ⟨rfl, rfl,
    (ceil_div_characterization
      (aggregateImages (normalizeDir folderPath) pages).length pageSize hps).1,
    (ceil_div_characterization
      (aggregateImages (normalizeDir folderPath) pages).length pageSize hps).2,
    ?_, rfl, by decide, by decide, by decide, by decide, by decide⟩
  intro hbeyond
  show ((aggregateImages (normalizeDir folderPath) pages).drop
      ((page - 1) * pageSize)).take pageSize = []
  rw [List.drop_eq_nil_of_le hbeyond, List.take_nil]

/-- Claim C3, witness: page 4 of the 250-image example is empty. -/
theorem image_pagination_witness :
    (1 ≤ 4 ∧ 1 ≤ 100
      ∧ (aggregateImages (normalizeDir "p") [exampleObjs]).length ≤ (4 - 1) * 100)
    ∧ (list_images "p" 100 4 [exampleObjs]).images = [] :=
  ⟨⟨by decide, by decide, by decide⟩,
    (image_pagination "p" 100 4 [exampleObjs] (by decide)
        (by decide)).2.2.2.2.1 (by decide)⟩

/-- Claim C4: an object under the queried prefix contributes an image entry
iff its key does not end in `/` and its lower-cased extension is one of
jpg/jpeg/png/gif/bmp/webp/svg/tiff; the entry carries the key, last-modified
and size, and its filename is the key with the queried prefix stripped.  In
the spec's example, `f.jpg`, `f.txt` and `sub/` under `p/` yield only
`f.jpg`. -/
theorem image_listing_filter (fp : String) (pages : List (List S3Obj)) :
    aggregateImages fp pages
      = (pages.flatten.filter isImageObj).map
          (fun o => ⟨if fp ≠ "" then strDrop o.key fp.length else o.key,
                     o.key, o.lastModified, o.size⟩)
    ∧ ((∀ o ∈ pages.flatten, ∃ rest, o.key = fp ++ rest) →
        ∀ e ∈ aggregateImages fp pages, fp ++ e.filename = e.key)
    ∧ aggregateImages "p/"
        [[⟨"p/f.jpg", "t", 1⟩, ⟨"p/f.txt", "t", 1⟩, ⟨"p/sub/", "t", 1⟩]]
      = [⟨"f.jpg", "p/f.jpg", "t", 1⟩] := by
  have hagg : aggregateImages fp pages
      = (pages.flatten.filter isImageObj).map
          (fun o => ⟨if fp ≠ "" then strDrop o.key fp.length else o.key,
                     o.key, o.lastModified, o.size⟩) := by
    unfold aggregateImages
    rw [flatten_filterMap]
    apply filterMap_if_eq_filter_map
    intro o
    by_cases h1 : endsSlash o.key
    · simp [isImageObj, h1]
    · by_cases h2 : strLower (splitext o.key).2 ∈ IMAGE_EXTENSIONS
      · simp [isImageObj, h1, h2]
      · simp [isImageObj, h1, h2]
  refine ⟨hagg, ?_, by decide⟩
  intro hpre e he
  rw [hagg] at he
  obtain ⟨o, ho, rfl⟩ := List.mem_map.mp he
  obtain ⟨rest, hk⟩ := hpre o (List.mem_filter.mp ho).1
  by_cases hfp : fp = ""
  · simp only [hfp]
    simp [empty_append]
  · simp only [ne_eq, hfp, not_false_iff, if_pos, if_true]
    show fp ++ strDrop o.key fp.length = o.key
    rw [hk, strDrop_append]

/-- Claim C5: `list_subdirectories` normalises the parent prefix, aggregates
the common prefixes of every store page, drops any prefix equal to the
normalised parent, and names each child by stripping the parent prefix and
trailing slashes; for the prefix set `{a/, b/, a/x/}` the store's common
prefixes under `a/` yield exactly `[{path: a/x/, name: x}]`. -/
theorem subdirectory_listing (now : Int) (parent : String)
    (pages : List (List String)) :
    (list_subdirectories emptyCache now parent pages).result
      = (pages.flatten.filter (fun p => p ≠ normalizeDir parent)).map
          (fun p => ⟨p, rstripSlash (strDrop p (normalizeDir parent).length)⟩)
    ∧ (∀ sfx : String, normalizeDir parent ++ sfx ∈ pages.flatten → sfx ≠ "" →
        (⟨normalizeDir parent ++ sfx, rstripSlash sfx⟩ : DirEntry)
          ∈ (list_subdirectories emptyCache now parent pages).result)
    ∧ (list_subdirectories emptyCache 0 "a/"
        [commonPrefixes ["a/", "b/", "a/x/"] "a/"]).result = [⟨"a/x/", "x"⟩] := by
  have hres : (list_subdirectories emptyCache now parent pages).result
      = (pages.flatten.filter (fun p => p ≠ normalizeDir parent)).map
          (fun p => ⟨p, rstripSlash (strDrop p (normalizeDir parent).length)⟩) := by
    show subdirsFromStore (normalizeDir parent) pages = _
    unfold subdirsFromStore
    exact flatten_filter_map _ _ pages
  refine ⟨hres, ?_, by decide⟩
  intro sfx hmem hne
  rw [hres]
  have hval : (⟨normalizeDir parent ++ sfx, rstripSlash sfx⟩ : DirEntry)
      = ⟨normalizeDir parent ++ sfx,
         rstripSlash (strDrop (normalizeDir parent ++ sfx)
           (normalizeDir parent).length)⟩ := by
    rw [strDrop_append]
  rw [hval]
  exact List.mem_map_of_mem _
    (List.mem_filter.mpr ⟨hmem, by simpa using append_ne_self hne⟩)

theorem append_ne_empty_right {a b : String} (hb : b ≠ "") : a ++ b ≠ "" := by
  intro h
  apply hb
  apply strext
  have hd := congrArg String.data h
  rw [String.data_append] at hd
  exact (List.append_eq_nil.mp hd).2

/-- Claim C6, counterexample: with the category present but empty, the
computed destination key is `CategorizedFiles/cat_.png`, not the claimed
`"CategorizedFiles/" + category + "/" + renamed` (which would be
`CategorizedFiles//cat_.png`): `os.path.join` does not insert a separator
after a component ending in `/`. -/
theorem categorize_destination_counterexample :
    destKeyOf "cat.png" ""
      ≠ "CategorizedFiles/" ++ "" ++ "/" ++ renamedFile "cat.png" "" := by
  decide

/-- Claim C6 (amended): for a category that is non-empty, neither starts nor
ends with `/`, and a renamed file not starting with `/`, the destination key
is the fixed root `CategorizedFiles/` + category + `/` + renamed (with
backslashes replaced by slashes), where renamed = stem + `_` + category +
ext; the key never depends on the source folder, and the handler reports the
fixed root as `destinationFolder`. -/
theorem categorize_destination (filename category : String)
    (h1 : category ≠ "") (h2 : startsSlash category = false)
    (h3 : endsSlash category = false)
    (h4 : startsSlash (renamedFile filename category) = false) :
    destKeyOf filename category
      = replBack ("CategorizedFiles/" ++ category ++ "/"
          ++ renamedFile filename category)
    ∧ (∀ sf items copyE delE c ok,
        (save_categorized sf items copyE delE c).1 = Except.ok ok →
        ok.destinationFolder = "CategorizedFiles/") := by
  constructor
  · unfold destKeyOf
    have hj1 : pjoin "CategorizedFiles/" category
        = "CategorizedFiles/" ++ category := by
      unfold pjoin
      rw [if_neg (by simp [h2]), if_pos (Or.inr (by decide))]
    have hane : ("CategorizedFiles/" ++ category) ≠ "" :=
      append_ne_empty_right h1
    have hends : endsSlash ("CategorizedFiles/" ++ category) = false := by
      rw [endsSlash_append _ h1]
      exact h3
    have hj2 : pjoin ("CategorizedFiles/" ++ category)
          (renamedFile filename category)
        = "CategorizedFiles/" ++ category ++ "/"
          ++ renamedFile filename category := by
      unfold pjoin
      rw [if_neg (by simp [h4]), if_neg (by simp [hane, hends])]
    rw [hj1, hj2]
  · intro sf items copyE delE c ok hok
    unfold save_categorized at hok
    by_cases hi : items = []
    · simp [hi] at hok
    · simp only [if_neg hi] at hok
      injection hok with h
      rw [← h]

/-- Claim C6, witness: the spec's example `cat.png` / `animal`. -/
theorem categorize_destination_witness :
    (("animal" : String) ≠ "" ∧ startsSlash "animal" = false
      ∧ endsSlash "animal" = false
      ∧ startsSlash (renamedFile "cat.png" "animal") = false)
    ∧ destKeyOf "cat.png" "animal"
        = replBack ("CategorizedFiles/" ++ "animal" ++ "/"
            ++ renamedFile "cat.png" "animal")
    ∧ destKeyOf "cat.png" "animal" = "CategorizedFiles/animal/cat_animal.png"
    ∧ renamedFile "cat.png" "animal" = "cat_animal.png" :=
  ⟨⟨by decide, by decide, by decide, by decide⟩,
    (categorize_destination "cat.png" "animal" (by decide) (by decide)
        (by decide) (by decide)).1,
    by decide, by decide⟩

/-- Claim C7: `save_categorized` answers with the 400 client error iff the
input list is empty; a non-empty batch always completes with a 200 whose
`categorizedCount` counts the per-item successes, and every `success:false`
entry carries the message of the store copy or delete failure that caused
it. -/
theorem categorize_error_handling (sourceFolder : String)
    (items : List CatItem) (copyE : String → String → Except String Unit)
    (delE : String → Except String Unit) (c : Cache) :
    ((∃ msg, (save_categorized sourceFolder items copyE delE c).1
        = Except.error msg) ↔ items = [])
    ∧ (∀ ok, (save_categorized sourceFolder items copyE delE c).1
          = Except.ok ok →
        ok.categorizedCount = (ok.results.filter (fun r => r.success)).length
        ∧ ∀ r ∈ ok.results, r.success = false →
            ∃ msg, r.error = some msg
              ∧ ∃ it ∈ items, ∃ fn cat,
                  it.filename? = some fn ∧ it.category? = some cat
                  ∧ (copyE (sourceKeyOf (normalizeDir sourceFolder) fn)
                        (destKeyOf fn cat) = Except.error msg
                    ∨ (copyE (sourceKeyOf (normalizeDir sourceFolder) fn)
                          (destKeyOf fn cat) = Except.ok ()
                      ∧ delE (sourceKeyOf (normalizeDir sourceFolder) fn)
                          = Except.error msg))) := by
  unfold save_categorized
  by_cases hi : items = []
  · simp [hi]
  · simp only [if_neg hi]
    constructor
    · simp [hi]
    · intro ok hok
      injection hok with h
      subst h
      refine ⟨rfl, ?_⟩
      intro r hr hfail
      obtain ⟨it, hit, hsome⟩ := List.mem_filterMap.mp hr
      cases hfn : it.filename? with
      | none => rw [hfn] at hsome; simp at hsome
      | some fn =>
        cases hcat : it.category? with
        | none => rw [hfn, hcat] at hsome; simp at hsome
        | some cat =>
          rw [hfn, hcat] at hsome
          simp only at hsome
          cases hcopy : copyE (sourceKeyOf (normalizeDir sourceFolder) fn)
              (destKeyOf fn cat) with
          | error e =>
            rw [hcopy] at hsome
            simp only [Option.some.injEq] at hsome
            subst hsome
            exact ⟨e, rfl, it, hit, fn, cat, hfn, hcat, Or.inl hcopy⟩
          | ok u =>
            cases u
            rw [hcopy] at hsome
            cases hdel : delE (sourceKeyOf (normalizeDir sourceFolder) fn) with
            | error e =>
              rw [hdel] at hsome
              simp only [Option.some.injEq] at hsome
              subst hsome
              exact ⟨e, rfl, it, hit, fn, cat, hfn, hcat,
                Or.inr ⟨hcopy, hdel⟩⟩
            | ok u' =>
              cases u'
              rw [hdel] at hsome
              simp only [Option.some.injEq] at hsome
              subst hsome
              simp at hfail

/-- Claim C9: a completed `save_categorized` batch leaves the cache without
the entry for `"subdirs_" + normalised source folder` and otherwise
untouched; a completed `upload_images` batch leaves it without the entry for
`"subdirs_Uncategorized_Images/"` and otherwise untouched. -/
theorem batch_cache_invalidation :
    (∀ (sourceFolder : String) (items : List CatItem)
        (copyE : String → String → Except String Unit)
        (delE : String → Except String Unit) (c : Cache),
      items ≠ [] →
        (save_categorized sourceFolder items copyE delE c).2
            ("subdirs_" ++ normalizeDir sourceFolder) = none
        ∧ ∀ k, k ≠ "subdirs_" ++ normalizeDir sourceFolder →
            (save_categorized sourceFolder items copyE delE c).2 k = c k)
    ∧ (∀ (files : List String) (secure : String → String)
        (uuids : Nat → String) (upE : String → Except String Unit)
        (c : Cache) (ok : UploadOk),
      (upload_images (some files) secure uuids upE c).1 = Except.ok ok →
        (upload_images (some files) secure uuids upE c).2
            ("subdirs_" ++ UNCATEGORIZED_FOLDER) = none
        ∧ ∀ k, k ≠ "subdirs_" ++ UNCATEGORIZED_FOLDER →
            (upload_images (some files) secure uuids upE c).2 k = c k) := by
  constructor
  · intro sourceFolder items copyE delE c hi
    unfold save_categorized
    simp only [if_neg hi]
    exact ⟨by simp [Cache.erase], fun k hk => by simp [Cache.erase, hk]⟩
  · intro files secure uuids upE c ok hok
    unfold upload_images at hok ⊢
    by_cases hbad : files = [] ∨ files.head? = some ""
    · simp [hbad] at hok
    · simp only [if_neg hbad]
      exact ⟨by simp [Cache.erase], fun k hk => by simp [Cache.erase, hk]⟩

end ImageTagging
